import Mathlib

/-!
Verification of the checkpoint persistence core
(`crates/nockapp/src/kernel/checkpoint.rs`).

The file shallowly embeds the on-disk checkpoint format (bincode standard
configuration: little-endian, variable-width integers), the checksum
discipline, and the dual-buffer recovery algorithm, and proves the
specification's claims about them.

External collaborators are modelled as parameters:
  * the blake3 digest is an arbitrary function `H : List Nat → Hash`
    (only determinism of the digest matters to the claims);
  * the interpreter's cue codec and the cold-state constructor are fields
    of an `Env` record (the spec declares them out of scope, specified
    only at their interface boundary).
Bytes are `Nat`s (with explicit `< 256` bounds where faithfulness needs
them) and byte strings are `List Nat`.
-/

deriving instance DecidableEq for Except

namespace NockchainCheckpoint

/-! ## Little-endian byte strings -/

/-- The `w` little-endian bytes of `n` (Rust `to_le_bytes`, truncating at `2^(8*w)`). -/
def toLeBytes : Nat → Nat → List Nat
  | 0, _ => []
  | w + 1, n => n % 256 :: toLeBytes w (n / 256)

/-- Read a little-endian byte string back as a number. -/
def fromLeBytes : List Nat → Nat
  | [] => 0
  | b :: bs => b + 256 * fromLeBytes bs

theorem toLeBytes_length (w n : Nat) : (toLeBytes w n).length = w := by
  induction w generalizing n with
  | zero => rfl
  | succ w ih => simp [toLeBytes, ih]

theorem toLeBytes_lt (w n : Nat) : ∀ b ∈ toLeBytes w n, b < 256 := by
  induction w generalizing n with
  | zero => simp [toLeBytes]
  | succ w ih =>
    intro b hb
    simp only [toLeBytes, List.mem_cons] at hb
    rcases hb with h | h
    · subst h; exact Nat.mod_lt _ (by norm_num)
    · exact ih _ b h

theorem fromLeBytes_toLeBytes (w n : Nat) (h : n < 2 ^ (8 * w)) :
    fromLeBytes (toLeBytes w n) = n := by
  induction w generalizing n with
  | zero => simp at h; simp [toLeBytes, fromLeBytes, h]
  | succ w ih =>
    have hdiv : n / 256 < 2 ^ (8 * w) := by
      rw [Nat.div_lt_iff_lt_mul (by norm_num)]
      calc n < 2 ^ (8 * (w + 1)) := h
        _ = 2 ^ (8 * w) * 256 := by ring
    simp only [toLeBytes, fromLeBytes, ih _ hdiv]
    omega

/-! ## bincode standard configuration: variable-width integers

`bincode::config::standard()` (used by `JammedCheckpoint::encode`,
`ExportedState::encode` and `JamPaths::decode_jam`) selects little-endian
byte order and variable-width integer encoding: an unsigned value up to 250
is a single byte; larger values get a one-byte tag (251/252/253 for a
16/32/64-bit body) followed by the little-endian body. `u8` and `bool` are
always a single byte. -/

/-- Encode a `u64` value under bincode varint. -/
def writeU64 (n : Nat) : List Nat :=
  if n ≤ 250 then [n]
  else if n < 2 ^ 16 then 251 :: toLeBytes 2 n
  else if n < 2 ^ 32 then 252 :: toLeBytes 4 n
  else 253 :: toLeBytes 8 n

/-- Encode a `u32` value under bincode varint. -/
def writeU32 (n : Nat) : List Nat :=
  if n ≤ 250 then [n]
  else if n < 2 ^ 16 then 251 :: toLeBytes 2 n
  else 252 :: toLeBytes 4 n

/-- Encode a `bool` (one byte, 0 or 1). -/
def writeBool (b : Bool) : List Nat :=
  [if b then 1 else 0]

/-- Structured decode failures, mirroring `bincode::error::DecodeError`. -/
inductive DecError where
  /-- The input ended before the value was complete. -/
  | UnexpectedEnd : DecError
  /-- A varint discriminant for a wider integer than the expected type. -/
  | InvalidIntegerType : DecError
  /-- A boolean byte other than 0 or 1. -/
  | InvalidBooleanValue : DecError
deriving DecidableEq, Repr

/-- Read exactly `k` bytes, returning them and the rest of the input. -/
def readBytes (k : Nat) (l : List Nat) : Except DecError (List Nat × List Nat) :=
  if k ≤ l.length then .ok (l.take k, l.drop k) else .error .UnexpectedEnd

/-- Decode a bincode varint `u64`. -/
def readU64 : List Nat → Except DecError (Nat × List Nat)
  | [] => .error .UnexpectedEnd
  | b :: rest =>
    if b ≤ 250 then .ok (b, rest)
    else if b = 251 then
      match readBytes 2 rest with
      | .error e => .error e
      | .ok (bs, r) => .ok (fromLeBytes bs, r)
    else if b = 252 then
      match readBytes 4 rest with
      | .error e => .error e
      | .ok (bs, r) => .ok (fromLeBytes bs, r)
    else if b = 253 then
      match readBytes 8 rest with
      | .error e => .error e
      | .ok (bs, r) => .ok (fromLeBytes bs, r)
    else .error .InvalidIntegerType

/-- Decode a bincode varint `u32` (a 64- or 128-bit discriminant is rejected). -/
def readU32 : List Nat → Except DecError (Nat × List Nat)
  | [] => .error .UnexpectedEnd
  | b :: rest =>
    if b ≤ 250 then .ok (b, rest)
    else if b = 251 then
      match readBytes 2 rest with
      | .error e => .error e
      | .ok (bs, r) => .ok (fromLeBytes bs, r)
    else if b = 252 then
      match readBytes 4 rest with
      | .error e => .error e
      | .ok (bs, r) => .ok (fromLeBytes bs, r)
    else .error .InvalidIntegerType

/-- Decode a `bool` byte. -/
def readBool : List Nat → Except DecError (Bool × List Nat)
  | [] => .error .UnexpectedEnd
  | b :: rest =>
    if b = 0 then .ok (false, rest)
    else if b = 1 then .ok (true, rest)
    else .error .InvalidBooleanValue

theorem readBytes_append (xs rest : List Nat) :
    readBytes xs.length (xs ++ rest) = .ok (xs, rest) := by
  simp [readBytes, List.take_append, List.drop_append]

theorem readU64_writeU64 (n : Nat) (h : n < 2 ^ 64) (rest : List Nat) :
    readU64 (writeU64 n ++ rest) = .ok (n, rest) := by
  unfold writeU64
  split
  · next hle => simp [readU64, hle]
  · next hgt =>
    split
    · next h16 =>
      have hrb := readBytes_append (toLeBytes 2 n) rest
      rw [toLeBytes_length] at hrb
      simp [readU64, hrb, fromLeBytes_toLeBytes 2 n h16]
    · next h16 =>
      split
      · next h32 =>
        have hrb := readBytes_append (toLeBytes 4 n) rest
        rw [toLeBytes_length] at hrb
        simp [readU64, hrb, fromLeBytes_toLeBytes 4 n h32]
      · next h32 =>
        have hrb := readBytes_append (toLeBytes 8 n) rest
        rw [toLeBytes_length] at hrb
        simp [readU64, hrb, fromLeBytes_toLeBytes 8 n h]

theorem readU32_writeU32 (n : Nat) (h : n < 2 ^ 32) (rest : List Nat) :
    readU32 (writeU32 n ++ rest) = .ok (n, rest) := by
  unfold writeU32
  split
  · next hle => simp [readU32, hle]
  · next hgt =>
    split
    · next h16 =>
      have hrb := readBytes_append (toLeBytes 2 n) rest
      rw [toLeBytes_length] at hrb
      simp [readU32, hrb, fromLeBytes_toLeBytes 2 n h16]
    · next h16 =>
      have hrb := readBytes_append (toLeBytes 4 n) rest
      rw [toLeBytes_length] at hrb
      simp [readU32, hrb, fromLeBytes_toLeBytes 4 n h]

theorem readBool_writeBool (b : Bool) (rest : List Nat) :
    readBool (writeBool b ++ rest) = .ok (b, rest) := by
  cases b <;> simp [writeBool, readBool]

/-! ## Data model -/

/-- A blake3 digest value (`blake3::Hash`): 32 raw bytes. Serde-serialized
through bincode as the bare 32-byte array, with no length prefix. -/
structure Hash where
  bytes : List Nat
deriving DecidableEq, Repr

/-- A digest is well formed when it is exactly 32 genuine bytes. -/
def Hash.wf (h : Hash) : Prop :=
  h.bytes.length = 32 ∧ ∀ b ∈ h.bytes, b < 256

instance (h : Hash) : Decidable h.wf := by
  unfold Hash.wf; infer_instance

/-- The `JammedNoun` payload: the serialized ("jammed") payload blob, a wrapper around
a byte string (`bytes::Bytes`). -/
structure JammedNoun where
  val : List Nat
deriving DecidableEq, Repr

/-- The value of `tas!(b"CHKJAM")`: the checkpoint magic, the six ASCII bytes of
"CHKJAM" packed little-endian into a `u64`. -/
def CHKJAM_MAGIC : Nat := 0x4D414A4B4843

/-- The value of `tas!(b"EXPJAM")`: the export magic, the six ASCII bytes of "EXPJAM"
packed little-endian into a `u64`. -/
def EXPJAM_MAGIC : Nat := 0x4D414A505845

/-- The on-disk checkpoint record (`JammedCheckpoint` in the source). -/
structure JammedCheckpoint where
  magic_bytes : Nat
  version : Nat
  buff_index : Bool
  ker_hash : Hash
  checksum : Hash
  event_num : Nat
  jam : JammedNoun
deriving DecidableEq, Repr

/-- The export record (`ExportedState` in the source): no buffer index and
no checksum. -/
structure ExportedState where
  magic_bytes : Nat
  version : Nat
  ker_hash : Hash
  event_num : Nat
  jam : JammedNoun
deriving DecidableEq, Repr

/-- A `JammedCheckpoint` is structurally valid when every field is a value
its Rust type can hold. -/
def JammedCheckpoint.wf (c : JammedCheckpoint) : Prop :=
  c.magic_bytes < 2 ^ 64 ∧ c.version < 2 ^ 32 ∧ c.ker_hash.wf ∧
    c.checksum.wf ∧ c.event_num < 2 ^ 64 ∧ c.jam.val.length < 2 ^ 64 ∧
    ∀ b ∈ c.jam.val, b < 256

instance (c : JammedCheckpoint) : Decidable c.wf := by
  unfold JammedCheckpoint.wf; infer_instance

/-- An `ExportedState` is structurally valid when every field is a value
its Rust type can hold. -/
def ExportedState.wf (s : ExportedState) : Prop :=
  s.magic_bytes < 2 ^ 64 ∧ s.version < 2 ^ 32 ∧ s.ker_hash.wf ∧
    s.event_num < 2 ^ 64 ∧ s.jam.val.length < 2 ^ 64 ∧
    ∀ b ∈ s.jam.val, b < 256

instance (s : ExportedState) : Decidable s.wf := by
  unfold ExportedState.wf; infer_instance

/-! ## Binary format

Encoding follows the `#[derive(Encode, Decode)]` field order under
`bincode::config::standard()`. The payload blob (`JammedNoun`) is
modelled from the spec: its bincode instance lives outside this core and
the spec fixes it as "a variable-length byte string with an explicit
length prefix" in the same varint discipline. -/

/-- Read a 32-byte digest. -/
def readHash (l : List Nat) : Except DecError (Hash × List Nat) :=
  match readBytes 32 l with
  | .error e => .error e
  | .ok (bs, r) => .ok (⟨bs⟩, r)

/-- Modelled from the spec: the payload codec of `JammedNoun` (declared
outside this core) — a varint length prefix followed by the raw bytes. -/
def readJammedNoun (l : List Nat) : Except DecError (JammedNoun × List Nat) :=
  match readU64 l with
  | .error e => .error e
  | .ok (len, r) =>
    match readBytes len r with
    | .error e => .error e
    | .ok (bs, r2) => .ok (⟨bs⟩, r2)

/-- Modelled from the spec: the payload codec of `JammedNoun` — a varint
length prefix followed by the raw bytes. -/
def writeJammedNoun (j : JammedNoun) : List Nat :=
  writeU64 j.val.length ++ j.val

/-- The bytes of a `JammedCheckpoint` record before the payload bytes:
every header field, including the payload's length prefix. -/
def JammedCheckpoint.headerBytes (c : JammedCheckpoint) : List Nat :=
  writeU64 c.magic_bytes ++ writeU32 c.version ++ writeBool c.buff_index ++
    c.ker_hash.bytes ++ c.checksum.bytes ++ writeU64 c.event_num ++
    writeU64 c.jam.val.length

/-- Source `JammedCheckpoint::encode`: bincode-encode the record's fields in
declaration order. -/
def JammedCheckpoint.encode (c : JammedCheckpoint) : List Nat :=
  c.headerBytes ++ c.jam.val

/-- Source `ExportedState::encode`: bincode-encode the record's fields in
declaration order. -/
def ExportedState.encode (s : ExportedState) : List Nat :=
  writeU64 s.magic_bytes ++ writeU32 s.version ++ s.ker_hash.bytes ++
    writeU64 s.event_num ++ writeJammedNoun s.jam

/-- The bincode decoder of `JammedCheckpoint` (the derived `Decode`
instance run by `bincode::decode_from_slice`): fields in declaration
order; trailing bytes are returned, not rejected. -/
def JammedCheckpoint.decode (l : List Nat) :
    Except DecError (JammedCheckpoint × List Nat) :=
  match readU64 l with
  | .error e => .error e
  | .ok (magic, l1) =>
    match readU32 l1 with
    | .error e => .error e
    | .ok (version, l2) =>
      match readBool l2 with
      | .error e => .error e
      | .ok (buff, l3) =>
        match readHash l3 with
        | .error e => .error e
        | .ok (kh, l4) =>
          match readHash l4 with
          | .error e => .error e
          | .ok (cs, l5) =>
            match readU64 l5 with
            | .error e => .error e
            | .ok (ev, l6) =>
              match readJammedNoun l6 with
              | .error e => .error e
              | .ok (j, l7) => .ok (⟨magic, version, buff, kh, cs, ev, j⟩, l7)

/-- The bincode decoder of `ExportedState` (the derived `Decode`
instance): fields in declaration order. -/
def ExportedState.decode (l : List Nat) :
    Except DecError (ExportedState × List Nat) :=
  match readU64 l with
  | .error e => .error e
  | .ok (magic, l1) =>
    match readU32 l1 with
    | .error e => .error e
    | .ok (version, l2) =>
      match readHash l2 with
      | .error e => .error e
      | .ok (kh, l3) =>
        match readU64 l3 with
        | .error e => .error e
        | .ok (ev, l4) =>
          match readJammedNoun l4 with
          | .error e => .error e
          | .ok (j, l5) => .ok (⟨magic, version, kh, ev, j⟩, l5)

theorem readHash_append (h : Hash) (rest : List Nat) (hwf : h.bytes.length = 32) :
    readHash (h.bytes ++ rest) = .ok (h, rest) := by
  have hrb := readBytes_append h.bytes rest
  rw [hwf] at hrb
  simp [readHash, hrb]

theorem readJammedNoun_append (j : JammedNoun) (rest : List Nat)
    (hlen : j.val.length < 2 ^ 64) :
    readJammedNoun (writeJammedNoun j ++ rest) = .ok (j, rest) := by
  simp only [writeJammedNoun, List.append_assoc]
  rw [readJammedNoun, readU64_writeU64 _ hlen]
  simp [readBytes_append]

theorem JammedCheckpoint.decode_encode_checkpoint (c : JammedCheckpoint) (hwf : c.wf)
    (rest : List Nat) :
    JammedCheckpoint.decode (c.encode ++ rest) = .ok (c, rest) := by
  obtain ⟨hm, hv, hkh, hcs, he, hj, -⟩ := hwf
  simp only [JammedCheckpoint.encode, JammedCheckpoint.headerBytes,
    List.append_assoc, JammedCheckpoint.decode, readJammedNoun,
    readU64_writeU64 _ hm, readU32_writeU32 _ hv, readBool_writeBool,
    readHash_append _ _ hkh.1, readHash_append _ _ hcs.1,
    readU64_writeU64 _ he, readU64_writeU64 _ hj, readBytes_append]

theorem ExportedState.decode_encode_export (s : ExportedState) (hwf : s.wf)
    (rest : List Nat) :
    ExportedState.decode (s.encode ++ rest) = .ok (s, rest) := by
  obtain ⟨hm, hv, hkh, he, hj, -⟩ := hwf
  simp only [ExportedState.encode, List.append_assoc, ExportedState.decode,
    readU64_writeU64 _ hm, readU32_writeU32 _ hv, readHash_append _ _ hkh.1,
    readU64_writeU64 _ he, readJammedNoun_append _ _ hj]

/-- A well-formed header followed by fewer payload bytes than the header
declares is rejected with `UnexpectedEnd`. -/
theorem JammedCheckpoint.decode_truncated (c : JammedCheckpoint) (hwf : c.wf)
    (short : List Nat) (hshort : short.length < c.jam.val.length) :
    JammedCheckpoint.decode (c.headerBytes ++ short) = .error .UnexpectedEnd := by
  obtain ⟨hm, hv, hkh, hcs, he, hj, -⟩ := hwf
  simp only [JammedCheckpoint.headerBytes, List.append_assoc,
    JammedCheckpoint.decode, readJammedNoun,
    readU64_writeU64 _ hm, readU32_writeU32 _ hv, readBool_writeBool,
    readHash_append _ _ hkh.1, readHash_append _ _ hcs.1,
    readU64_writeU64 _ he, readU64_writeU64 _ hj]
  have hle : ¬ c.jam.val.length ≤ short.length := by omega
  simp [readBytes, hle]

/-! ## Checksum codec

The digest itself is the external blake3 crate; it enters as a parameter
`H : List Nat → Hash`. The incremental `Hasher` (`update` of the 8-byte
little-endian event number, then of the 8-byte little-endian payload
length, then of the payload, then `finalize`) is the digest of the
concatenation of those three byte strings. -/

/-- Source `JammedCheckpoint::checksum` (named `checksumOf` here because the
structure already has a `checksum` field): digest of
`event_num.to_le_bytes() · jam.len().to_le_bytes() · jam`. -/
def JammedCheckpoint.checksumOf (H : List Nat → Hash) (event_num : Nat)
    (jam : List Nat) : Hash :=
  H (toLeBytes 8 event_num ++ toLeBytes 8 jam.length ++ jam)

/-- Source `JammedCheckpoint::new`: build a record with the freshly computed
checksum and the `CHKJAM` magic. -/
def JammedCheckpoint.new (H : List Nat → Hash) (version : Nat)
    (buff_index : Bool) (ker_hash : Hash) (event_num : Nat)
    (jam : JammedNoun) : JammedCheckpoint :=
  { magic_bytes := CHKJAM_MAGIC
    version := version
    buff_index := buff_index
    ker_hash := ker_hash
    checksum := JammedCheckpoint.checksumOf H event_num jam.val
    event_num := event_num
    jam := jam }

/-- Source `JammedCheckpoint::validate`: the stored checksum equals the digest
recomputed from the record's own event number and payload. -/
def JammedCheckpoint.validate (H : List Nat → Hash)
    (c : JammedCheckpoint) : Bool :=
  decide (c.checksum = JammedCheckpoint.checksumOf H c.event_num c.jam.val)

/-! ## Materializer (`Checkpoint::load`) -/

/-- An interpreter value (`nockvm::noun::Noun`): an atom or a cell. Its
internal structure is opaque to this core; only the atom/cell split is
observed (`as_cell`). -/
inductive Noun where
  | atom : Nat → Noun
  | cell : Noun → Noun → Noun
deriving DecidableEq, Repr

/-- The cold state rebuilt by `Cold::from_vecs` from the three vectors
`Cold::from_noun` produces. -/
structure Cold where
  a : List Nat
  b : List Nat
  c : List Nat
deriving DecidableEq, Repr

/-- Modelled from the spec: the external state codec and cold-cache
subsystem, specified only at their interface boundary — `cue` deserializes
payload bytes into an interpreter value (`None` is an interpreter error),
and `coldFromNoun` is `Cold::from_noun` composed with `Cold::from_vecs`
(`None` is a `FromNounError`). -/
structure Env where
  cue : List Nat → Option Noun
  coldFromNoun : Noun → Option Cold

/-- The in-memory `Checkpoint`. -/
structure Checkpoint where
  magic_bytes : Nat
  version : Nat
  buff_index : Bool
  ker_hash : Hash
  event_num : Nat
  ker_state : Noun
  cold : Cold
deriving DecidableEq, Repr

/-- The `CheckpointError` taxonomy of the recovery path. The
composite variant owns both underlying causes. -/
inductive CheckpointError where
  /-- An `std::io::Error` while reading a slot file. -/
  | IOError : CheckpointError
  /-- A `bincode::error::DecodeError` while decoding a slot file. -/
  | DecodeError : DecError → CheckpointError
  /-- Checksum validation failed for the file at this path. -/
  | InvalidChecksum : String → CheckpointError
  /-- An `nockvm::noun::Error` (`as_cell` on an atom). -/
  | SwordNounError : CheckpointError
  /-- An `nockvm::jets::cold::FromNounError`. -/
  | FromNounError : CheckpointError
  /-- Both slots failed; carries both underlying errors. -/
  | BothCheckpointsFailed : CheckpointError → CheckpointError → CheckpointError
  /-- The interpreter's cue routine rejected the payload. -/
  | SwordInterpreterError : CheckpointError
deriving DecidableEq, Repr

/-- Source `Checkpoint::load`: cue the payload, split the resulting cell into
kernel state and cold state, and copy every other field from the record. -/
def Checkpoint.load (env : Env) (jam : JammedCheckpoint) :
    Except CheckpointError Checkpoint :=
  match env.cue jam.jam.val with
  | none => .error .SwordInterpreterError
  | some n =>
    match n with
    | .atom _ => .error .SwordNounError
    | .cell h t =>
      match env.coldFromNoun t with
      | none => .error .FromNounError
      | some cold =>
        .ok { magic_bytes := jam.magic_bytes
              version := jam.version
              buff_index := jam.buff_index
              ker_hash := jam.ker_hash
              event_num := jam.event_num
              ker_state := h
              cold := cold }

/-! ## Dual-buffer recovery manager (`JamPaths`) -/

/-- The read side of the file system: what bytes live at each path
(`none` models an I/O failure such as a missing file). -/
def FileSys : Type := String → Option (List Nat)

/-- The `JamPaths` pair: the ordered pair of slot paths (`self.0`, `self.1`). -/
structure JamPaths where
  p0 : String
  p1 : String
deriving DecidableEq, Repr

/-- Source `JamPaths::new`: `dir/0.chkjam` and `dir/1.chkjam`. -/
def JamPaths.new (dir : String) : JamPaths :=
  ⟨dir ++ "/0.chkjam", dir ++ "/1.chkjam"⟩

/-- Source `JamPaths::decode_jam`: read the file, bincode-decode it (ignoring
trailing bytes), then checksum-validate. -/
def JamPaths.decode_jam (H : List Nat → Hash) (fs : FileSys)
    (jam_path : String) : Except CheckpointError JammedCheckpoint :=
  match fs jam_path with
  | none => .error .IOError
  | some bytes =>
    match JammedCheckpoint.decode bytes with
    | .error e => .error (.DecodeError e)
    | .ok (checkpoint, _) =>
      if checkpoint.validate H then .ok checkpoint
      else .error (.InvalidChecksum jam_path)

/-- Source `JamPaths::load_checkpoint`: decode both slots; with two valid
records take the one with the strictly greater event number (`a` only
when `a.event_num > b.event_num`); with one valid record take it; with
none fail with the composite error. -/
def JamPaths.load_checkpoint (H : List Nat → Hash) (env : Env)
    (fs : FileSys) (self : JamPaths) : Except CheckpointError Checkpoint :=
  match JamPaths.decode_jam H fs self.p0, JamPaths.decode_jam H fs self.p1 with
  | .ok a, .ok b =>
    Checkpoint.load env (if b.event_num < a.event_num then a else b)
  | .ok c, .error _ => Checkpoint.load env c
  | .error _, .ok c => Checkpoint.load env c
  | .error e1, .error e2 => .error (.BothCheckpointsFailed e1 e2)

/-- Materialization copies the event number unchanged. -/
theorem Checkpoint.load_event_num (env : Env) (jam : JammedCheckpoint)
    (ch : Checkpoint) (h : Checkpoint.load env jam = .ok ch) :
    ch.event_num = jam.event_num := by
  unfold Checkpoint.load at h
  cases hq : env.cue jam.jam.val with
  | none => simp [hq] at h
  | some n =>
    cases n with
    | atom a => simp [hq] at h
    | cell hd tl =>
      cases hc : env.coldFromNoun tl with
      | none => simp [hq, hc] at h
      | some cold =>
        simp [hq, hc] at h
        subst h
        rfl

/-- Whether an error is the composite dual-failure variant. -/
def CheckpointError.isBothFailed : CheckpointError → Bool
  | .BothCheckpointsFailed _ _ => true
  | _ => false

/-- The record layout the specification's interface section describes,
with fixed-width integers: magic(8B) · version(4B) · buffer_index(1B) ·
kernel_hash · checksum · event_number(8B) · payload_length(varint) ·
payload. Stated from the spec's words, for comparison with `encode`. -/
def specFixedLayout (c : JammedCheckpoint) : List Nat :=
  toLeBytes 8 c.magic_bytes ++ toLeBytes 4 c.version ++
    writeBool c.buff_index ++ c.ker_hash.bytes ++ c.checksum.bytes ++
    toLeBytes 8 c.event_num ++ writeU64 c.jam.val.length ++ c.jam.val

/-! ## Concrete evaluation material -/

/-- A concrete stand-in digest for concrete evaluations: every input maps
to the all-zero digest (the claims need only determinism of the digest). -/
def H0 : List Nat → Hash := fun _ => ⟨List.replicate 32 0⟩

/-- The all-zero digest. -/
def hashZ : Hash := ⟨List.replicate 32 0⟩

/-- The all-one digest. -/
def hashA : Hash := ⟨List.replicate 32 1⟩

/-- The all-two digest. -/
def hashB : Hash := ⟨List.replicate 32 2⟩

/-- An environment whose cue and cold-state constructors succeed. -/
def envOk : Env :=
  ⟨fun _ => some (.cell (.atom 0) (.atom 1)), fun _ => some ⟨[], [], []⟩⟩

/-- An environment whose cue routine rejects every payload. -/
def envBad : Env := ⟨fun _ => none, fun _ => some ⟨[], [], []⟩⟩

/-- A valid record in slot 0 with event number 5. -/
def recA : JammedCheckpoint := ⟨CHKJAM_MAGIC, 1, false, hashA, hashZ, 5, ⟨[]⟩⟩

/-- A valid record in slot 1 with event number 7. -/
def recB : JammedCheckpoint := ⟨CHKJAM_MAGIC, 1, true, hashB, hashZ, 7, ⟨[]⟩⟩

/-- A valid record in slot 1 with event number 5, equal to `recA`'s. -/
def recEqB : JammedCheckpoint := ⟨CHKJAM_MAGIC, 1, true, hashB, hashZ, 5, ⟨[]⟩⟩

/-- A record whose stored checksum does not match the recomputed digest. -/
def recBadSum : JammedCheckpoint := ⟨CHKJAM_MAGIC, 1, false, hashA, hashA, 5, ⟨[]⟩⟩

/-- A valid record in slot 1 with event number 3. -/
def recC3 : JammedCheckpoint := ⟨CHKJAM_MAGIC, 1, true, hashB, hashZ, 3, ⟨[]⟩⟩

/-- A valid record with a three-byte payload. -/
def recT : JammedCheckpoint := ⟨CHKJAM_MAGIC, 1, false, hashA, hashZ, 5, ⟨[1, 2, 3]⟩⟩

/-- A concrete export record. -/
def expS : ExportedState := ⟨EXPJAM_MAGIC, 1, hashA, 5, ⟨[3]⟩⟩

/-- Slot files holding `recA` (event 5) and `recB` (event 7). -/
def fsAB : FileSys := fun p =>
  if p = "0" then some recA.encode
  else if p = "1" then some recB.encode
  else none

/-- Slot files holding `recA` and `recEqB` (equal event numbers). -/
def fsEq : FileSys := fun p =>
  if p = "0" then some recA.encode
  else if p = "1" then some recEqB.encode
  else none

/-- Slot 0 checksum-corrupt, slot 1 valid with event number 3. -/
def fsC3 : FileSys := fun p =>
  if p = "0" then some recBadSum.encode
  else if p = "1" then some recC3.encode
  else none

/-- A checksum-corrupt file in slot 0 only. -/
def fsBad : FileSys := fun p =>
  if p = "0" then some recBadSum.encode else none

/-- No slot file exists. -/
def fsNone : FileSys := fun _ => none

/-! ## Claims -/

/-- C5: for every digest function, version, buffer index, kernel hash,
event number and payload, the record built by `JammedCheckpoint::new`
passes `validate`: the stored checksum equals the digest recomputed from
the record's own event number and payload. -/
theorem claim_c5_new_validates (H : List Nat → Hash) (version : Nat)
    (buff_index : Bool) (ker_hash : Hash) (event_num : Nat)
    (jam : JammedNoun) :
    (JammedCheckpoint.new H version buff_index ker_hash event_num jam).validate H
      = true := by
  simp [JammedCheckpoint.new, JammedCheckpoint.validate]

/-- C10: whenever `Checkpoint::load` succeeds, the returned `Checkpoint`
carries the record's `magic_bytes`, `version`, `buff_index`, `ker_hash`
and `event_num` unchanged, and only the payload is transformed: the
kernel state is the head of the cued payload and the cold state is built
from its tail. -/
theorem claim_c10_load_frame (env : Env) (jam : JammedCheckpoint)
    (ch : Checkpoint) (h : Checkpoint.load env jam = .ok ch) :
    ch.magic_bytes = jam.magic_bytes ∧ ch.version = jam.version ∧
    ch.buff_index = jam.buff_index ∧ ch.ker_hash = jam.ker_hash ∧
    ch.event_num = jam.event_num ∧
    ∃ hd tl, env.cue jam.jam.val = some (.cell hd tl) ∧
      ch.ker_state = hd ∧ env.coldFromNoun tl = some ch.cold := by
  unfold Checkpoint.load at h
  cases hq : env.cue jam.jam.val with
  | none => simp [hq] at h
  | some n =>
    cases n with
    | atom a => simp [hq] at h
    | cell hd tl =>
      cases hc : env.coldFromNoun tl with
      | none => simp [hq, hc] at h
      | some cold =>
        simp [hq, hc] at h
        subst h
        exact ⟨rfl, rfl, rfl, rfl, rfl, hd, tl, rfl, rfl, hc⟩

/-- C10 witness: `Checkpoint::load` of `recA` under `envOk` preserves
every header field. -/
theorem claim_c10_load_frame_witness :
    (⟨CHKJAM_MAGIC, 1, false, hashA, 5, .atom 0, ⟨[], [], []⟩⟩ :
        Checkpoint).magic_bytes = recA.magic_bytes ∧
    (⟨CHKJAM_MAGIC, 1, false, hashA, 5, .atom 0, ⟨[], [], []⟩⟩ :
        Checkpoint).version = recA.version ∧
    (⟨CHKJAM_MAGIC, 1, false, hashA, 5, .atom 0, ⟨[], [], []⟩⟩ :
        Checkpoint).buff_index = recA.buff_index ∧
    (⟨CHKJAM_MAGIC, 1, false, hashA, 5, .atom 0, ⟨[], [], []⟩⟩ :
        Checkpoint).ker_hash = recA.ker_hash ∧
    (⟨CHKJAM_MAGIC, 1, false, hashA, 5, .atom 0, ⟨[], [], []⟩⟩ :
        Checkpoint).event_num = recA.event_num ∧
    ∃ hd tl, envOk.cue recA.jam.val = some (.cell hd tl) ∧
      (⟨CHKJAM_MAGIC, 1, false, hashA, 5, .atom 0, ⟨[], [], []⟩⟩ :
        Checkpoint).ker_state = hd ∧
      envOk.coldFromNoun tl = some (⟨CHKJAM_MAGIC, 1, false, hashA, 5,
        .atom 0, ⟨[], [], []⟩⟩ : Checkpoint).cold :=
  claim_c10_load_frame envOk recA _ (by decide)

/-- C3: when exactly one slot decodes and validates, `load_checkpoint` is
exactly the materialization of the valid record — the failing slot's
error does not appear in the result, whatever it is, so the single-slot
failure never causes recovery to fail. -/
theorem claim_c3_single_slot (H : List Nat → Hash) (env : Env)
    (fs : FileSys) (P : JamPaths) (c : JammedCheckpoint)
    (e : CheckpointError) :
    (JamPaths.decode_jam H fs P.p0 = .ok c →
      JamPaths.decode_jam H fs P.p1 = .error e →
      P.load_checkpoint H env fs = Checkpoint.load env c) ∧
    (JamPaths.decode_jam H fs P.p0 = .error e →
      JamPaths.decode_jam H fs P.p1 = .ok c →
      P.load_checkpoint H env fs = Checkpoint.load env c) := by
  constructor <;> intro h0 h1 <;> unfold JamPaths.load_checkpoint <;>
    rw [h0, h1]

/-- C3 witness: slot 0 checksum-corrupt, slot 1 valid with event number
3 — recovery materializes slot 1's record. -/
theorem claim_c3_single_slot_witness :
    (JamPaths.mk "0" "1").load_checkpoint H0 envOk fsC3 =
      Checkpoint.load envOk recC3 :=
  (claim_c3_single_slot H0 envOk fsC3 ⟨"0", "1"⟩ recC3
    (.InvalidChecksum "0")).2 (by decide) (by decide)

/-- C1: with two valid slots, `load_checkpoint` materializes the record
with the strictly greater event number, and any checkpoint it returns
carries that event number. -/
theorem claim_c1_freshest_wins (H : List Nat → Hash) (env : Env)
    (fs : FileSys) (P : JamPaths) (a b : JammedCheckpoint)
    (h0 : JamPaths.decode_jam H fs P.p0 = .ok a)
    (h1 : JamPaths.decode_jam H fs P.p1 = .ok b) :
    (b.event_num < a.event_num →
      P.load_checkpoint H env fs = Checkpoint.load env a ∧
      ∀ ch, P.load_checkpoint H env fs = .ok ch →
        ch.event_num = a.event_num) ∧
    (a.event_num < b.event_num →
      P.load_checkpoint H env fs = Checkpoint.load env b ∧
      ∀ ch, P.load_checkpoint H env fs = .ok ch →
        ch.event_num = b.event_num) := by
  have hL : P.load_checkpoint H env fs =
      Checkpoint.load env (if b.event_num < a.event_num then a else b) := by
    unfold JamPaths.load_checkpoint
    rw [h0, h1]
  constructor
  · intro hba
    rw [hL, if_pos hba]
    exact ⟨rfl, fun ch hch => Checkpoint.load_event_num env a ch hch⟩
  · intro hab
    have hnot : ¬ b.event_num < a.event_num := by omega
    rw [hL, if_neg hnot]
    exact ⟨rfl, fun ch hch => Checkpoint.load_event_num env b ch hch⟩

/-- C1 witness: slots with event numbers 5 and 7 — recovery materializes
the event-7 record, and the checkpoint it returns has event number 7. -/
theorem claim_c1_freshest_wins_witness :
    (JamPaths.mk "0" "1").load_checkpoint H0 envOk fsAB =
      Checkpoint.load envOk recB ∧
    ∀ ch, (JamPaths.mk "0" "1").load_checkpoint H0 envOk fsAB = .ok ch →
      ch.event_num = 7 :=
  (claim_c1_freshest_wins H0 envOk fsAB ⟨"0", "1"⟩ recA recB
    (by decide) (by decide)).2 (by decide)

/-- C2 (amended): when both slots fail, `load_checkpoint` fails with the
composite error carrying both causes; slot-level errors cause recovery to
fail only in that case, but recovery can additionally fail while
materializing a decoded valid record (`Checkpoint::load`). -/
theorem claim_c2_both_failed (H : List Nat → Hash) (env : Env)
    (fs : FileSys) (P : JamPaths) :
    (∀ e1 e2, JamPaths.decode_jam H fs P.p0 = .error e1 →
      JamPaths.decode_jam H fs P.p1 = .error e2 →
      P.load_checkpoint H env fs = .error (.BothCheckpointsFailed e1 e2)) ∧
    (∀ e, P.load_checkpoint H env fs = .error e →
      (∃ e1 e2, e = .BothCheckpointsFailed e1 e2 ∧
        JamPaths.decode_jam H fs P.p0 = .error e1 ∧
        JamPaths.decode_jam H fs P.p1 = .error e2) ∨
      (∃ c, (JamPaths.decode_jam H fs P.p0 = .ok c ∨
          JamPaths.decode_jam H fs P.p1 = .ok c) ∧
        Checkpoint.load env c = .error e)) := by
  constructor
  · intro e1 e2 h0 h1
    unfold JamPaths.load_checkpoint
    rw [h0, h1]
  · intro e he
    unfold JamPaths.load_checkpoint at he
    cases h0 : JamPaths.decode_jam H fs P.p0 with
    | ok a =>
      rw [h0] at he
      cases h1 : JamPaths.decode_jam H fs P.p1 with
      | ok b =>
        rw [h1] at he
        have he2 : Checkpoint.load env
            (if b.event_num < a.event_num then a else b) = .error e := he
        by_cases hba : b.event_num < a.event_num
        · rw [if_pos hba] at he2
          exact .inr ⟨a, .inl rfl, he2⟩
        · rw [if_neg hba] at he2
          exact .inr ⟨b, .inr rfl, he2⟩
      | error e2 =>
        rw [h1] at he
        exact .inr ⟨a, .inl rfl, he⟩
    | error e1 =>
      rw [h0] at he
      cases h1 : JamPaths.decode_jam H fs P.p1 with
      | ok b =>
        rw [h1] at he
        exact .inr ⟨b, .inr rfl, he⟩
      | error e2 =>
        rw [h1] at he
        have he2 : (Except.error (CheckpointError.BothCheckpointsFailed e1 e2) :
            Except CheckpointError Checkpoint) = .error e := he
        injection he2 with h3
        exact .inl ⟨e1, e2, h3.symm, rfl, rfl⟩

/-- C2 witness: with both slot files missing, recovery fails with the
composite error carrying both I/O failures. -/
theorem claim_c2_both_failed_witness :
    (JamPaths.mk "0" "1").load_checkpoint H0 envOk fsNone =
      .error (.BothCheckpointsFailed .IOError .IOError) :=
  (claim_c2_both_failed H0 envOk fsNone ⟨"0", "1"⟩).1
    .IOError .IOError (by decide) (by decide)

/-- C2 counterexample: both slots decode and validate, yet recovery fails
(the cue routine rejects the payload) with an error that is not the
composite dual-failure — so the composite case is not the only way
`load_checkpoint` fails. -/
theorem claim_c2_counterexample :
    JamPaths.decode_jam H0 fsAB "0" = .ok recA ∧
    JamPaths.decode_jam H0 fsAB "1" = .ok recB ∧
    (JamPaths.mk "0" "1").load_checkpoint H0 envBad fsAB =
      .error .SwordInterpreterError ∧
    CheckpointError.isBothFailed .SwordInterpreterError = false := by decide

/-- C4 (amended): on equal event numbers `load_checkpoint`
deterministically materializes the second slot (slot 1, path `self.1`):
the comparison `a.event_num > b.event_num` is false on a tie, so the
`else` branch picks `b`. -/
theorem claim_c4_tie_second_slot (H : List Nat → Hash) (env : Env)
    (fs : FileSys) (P : JamPaths) (a b : JammedCheckpoint)
    (h0 : JamPaths.decode_jam H fs P.p0 = .ok a)
    (h1 : JamPaths.decode_jam H fs P.p1 = .ok b)
    (heq : a.event_num = b.event_num) :
    P.load_checkpoint H env fs = Checkpoint.load env b := by
  unfold JamPaths.load_checkpoint
  rw [h0, h1]
  have hnot : ¬ b.event_num < a.event_num := by omega
  show Checkpoint.load env (if b.event_num < a.event_num then a else b) =
    Checkpoint.load env b
  rw [if_neg hnot]

/-- C4 witness: two valid slots with equal event numbers — recovery
materializes the slot-1 record. -/
theorem claim_c4_tie_second_slot_witness :
    (JamPaths.mk "0" "1").load_checkpoint H0 envOk fsEq =
      Checkpoint.load envOk recEqB :=
  claim_c4_tie_second_slot H0 envOk fsEq ⟨"0", "1"⟩ recA recEqB
    (by decide) (by decide) (by decide)

/-- C4 counterexample: with equal event numbers in both slots the
returned checkpoint carries slot 1's buffer index and kernel hash, not
slot 0's — the fixed choice is the second slot, not the first. -/
theorem claim_c4_counterexample :
    JamPaths.decode_jam H0 fsEq "0" = .ok recA ∧
    JamPaths.decode_jam H0 fsEq "1" = .ok recEqB ∧
    recA.event_num = recEqB.event_num ∧
    (JamPaths.mk "0" "1").load_checkpoint H0 envOk fsEq =
      .ok ⟨CHKJAM_MAGIC, 1, true, hashB, 5, .atom 0, ⟨[], [], []⟩⟩ ∧
    recA.buff_index = false ∧ recA.ker_hash = hashA ∧
    recEqB.buff_index = true ∧ recEqB.ker_hash = hashB ∧
    hashA ≠ hashB := by decide

/-- C6: any byte sequence that decodes structurally into a record whose
stored checksum differs from the recomputed digest makes `decode_jam`
fail with `InvalidChecksum`, so the recovery layer sees a checksum-invalid
slot as a failed slot exactly like a decode failure. -/
theorem claim_c6_invalid_checksum (H : List Nat → Hash) (fs : FileSys)
    (p : String) (bytes : List Nat) (c : JammedCheckpoint) (rest : List Nat)
    (hfs : fs p = some bytes)
    (hdec : JammedCheckpoint.decode bytes = .ok (c, rest))
    (hbad : c.checksum ≠ JammedCheckpoint.checksumOf H c.event_num c.jam.val) :
    JamPaths.decode_jam H fs p = .error (.InvalidChecksum p) := by
  have hv : c.validate H = false := by
    simp [JammedCheckpoint.validate, hbad]
  simp only [JamPaths.decode_jam, hfs, hdec, hv]
  rfl

/-- C6 witness: a slot file whose record decodes but carries a wrong
checksum is rejected with `InvalidChecksum`. -/
theorem claim_c6_invalid_checksum_witness :
    JamPaths.decode_jam H0 fsBad "0" = .error (.InvalidChecksum "0") :=
  claim_c6_invalid_checksum H0 fsBad "0" recBadSum.encode recBadSum []
    (by decide) (by decide) (by decide)

/-- C7: decoding the bytes produced by `encode` yields the original
record with no bytes left over, for structurally valid records of both
format kinds. -/
theorem claim_c7_roundtrip :
    (∀ c : JammedCheckpoint, c.wf →
      JammedCheckpoint.decode c.encode = .ok (c, [])) ∧
    (∀ s : ExportedState, s.wf →
      ExportedState.decode s.encode = .ok (s, [])) := by
  constructor
  · intro c hwf
    have h := JammedCheckpoint.decode_encode_checkpoint c hwf []
    rwa [List.append_nil] at h
  · intro s hwf
    have h := ExportedState.decode_encode_export s hwf []
    rwa [List.append_nil] at h

/-- C7 witness: the round trip evaluated on a concrete checkpoint record
and a concrete export record. -/
theorem claim_c7_roundtrip_witness :
    JammedCheckpoint.decode (JammedCheckpoint.encode recT) = .ok (recT, []) ∧
    ExportedState.decode (ExportedState.encode expS) = .ok (expS, []) :=
  ⟨claim_c7_roundtrip.1 recT (by decide), claim_c7_roundtrip.2 expS (by decide)⟩

/-- C8: decoding a checkpoint record is total — every input byte sequence
yields either a record or a structured decode error — and a valid header
followed by fewer payload bytes than the header declares is rejected with
`UnexpectedEnd`. -/
theorem claim_c8_decode_total :
    (∀ bytes : List Nat,
      (∃ c rest, JammedCheckpoint.decode bytes = .ok (c, rest)) ∨
      (∃ e, JammedCheckpoint.decode bytes = .error e)) ∧
    (∀ c : JammedCheckpoint, c.wf → ∀ short : List Nat,
      short.length < c.jam.val.length →
      JammedCheckpoint.decode (c.headerBytes ++ short) =
        .error .UnexpectedEnd) := by
  constructor
  · intro bytes
    cases h : JammedCheckpoint.decode bytes with
    | ok v => exact .inl ⟨v.1, v.2, rfl⟩
    | error e => exact .inr ⟨e, rfl⟩
  · intro c hwf short hshort
    exact JammedCheckpoint.decode_truncated c hwf short hshort

/-- C8 witness: the header of `recT` (which declares a three-byte
payload) followed by no payload bytes at all decodes to a structured
`UnexpectedEnd` error. -/
theorem claim_c8_decode_total_witness :
    JammedCheckpoint.decode (JammedCheckpoint.headerBytes recT ++ []) =
      .error .UnexpectedEnd :=
  claim_c8_decode_total.2 recT (by decide) [] (by decide)

/-- C9 counterexample: the encoding of a concrete record does not match
the fixed-width layout the claim describes — the magic tag, version and
event number are bincode varints (77 bytes in all here), not fixed
8-, 4- and 8-byte fields (86 bytes). -/
theorem claim_c9_counterexample :
    JammedCheckpoint.encode recA ≠ specFixedLayout recA ∧
    (JammedCheckpoint.encode recA).length = 77 ∧
    (specFixedLayout recA).length = 86 := by decide

/-- C9 (amended): `encode` lays the fields out in the fixed documented
order — magic, version, buffer index, kernel hash digest, checksum
digest, event number, length-prefixed payload — but the multi-byte
integers are little-endian bincode varints, not fixed-width: a value up
to 250 is one byte, and larger values take a tag byte plus a 2-, 4- or
8-byte little-endian body. -/
theorem claim_c9_layout :
    (∀ c : JammedCheckpoint,
      JammedCheckpoint.encode c =
        writeU64 c.magic_bytes ++ writeU32 c.version ++
          writeBool c.buff_index ++ c.ker_hash.bytes ++ c.checksum.bytes ++
          writeU64 c.event_num ++ writeU64 c.jam.val.length ++ c.jam.val) ∧
    (∀ n, (writeU64 n).length =
      if n ≤ 250 then 1 else if n < 2 ^ 16 then 3
      else if n < 2 ^ 32 then 5 else 9) ∧
    (∀ n, (writeU32 n).length =
      if n ≤ 250 then 1 else if n < 2 ^ 16 then 3 else 5) ∧
    (∀ b, (writeBool b).length = 1) := by
  refine ⟨fun c => ?_, fun n => ?_, fun n => ?_, fun b => rfl⟩
  · simp [JammedCheckpoint.encode, JammedCheckpoint.headerBytes]
  · unfold writeU64
    split_ifs <;> simp [toLeBytes_length]
  · unfold writeU32
    split_ifs <;> simp [toLeBytes_length]

end NockchainCheckpoint
